import Mathlib

/-!
Verification development for the `circuit` library (a Go circuit breaker).

Shallow embedding conventions:
* `time.Time` values are modelled by their unix timestamp in whole seconds
  (a `Nat`); the zero value `time.Time{}` is modelled by `0`.  Durations are
  whole seconds.  `now.Second()` (second of the minute) is `now % 60`.
* Go `float64` arithmetic (error percentages, SRE rejection probabilities)
  is modelled by exact rationals `ℚ`.
* Go `int64` counters are modelled by `Nat` (they are only ever
  incremented); fields that user options may set to negative values
  (`minRequestThreshold`) are modelled by `Int`.
* Channel-fed mutations processed by the single aggregator goroutine are
  modelled by applying a list of timestamped events to the aggregator
  state in sequence.
-/

namespace Circuit

namespace Internal

/-- `UnitCounter` of `breaker/internal/metric.go`: the per-second bucket of
the sliding window. -/
structure UnitCounter where
  success : Nat
  timeout : Nat
  failure : Nat
  fallbackSuccess : Nat
  fallbackFailure : Nat
  lastRecordTime : Nat
  deriving DecidableEq, Repr

/-- The zero value `&UnitCounter{}`. -/
def UnitCounter.zero : UnitCounter :=
  ⟨0, 0, 0, 0, 0, 0⟩

/-- `UnitCounter.Reset` of `breaker/internal/metric.go`: zero every counter
and set `LastRecordTime` to the zero time. -/
def UnitCounter.Reset (_c : UnitCounter) : UnitCounter :=
  UnitCounter.zero

/-- `MetricSummary` of `breaker/internal/metric.go`. -/
structure MetricSummary where
  success : Nat
  timeout : Nat
  failure : Nat
  fallbackSuccess : Nat
  fallbackFailure : Nat
  total : Nat
  errorPercentage : ℚ
  lastExecuteTime : Nat
  lastSuccessTime : Nat
  lastTimeoutTime : Nat
  lastFailureTime : Nat
  deriving DecidableEq, Repr

/-- The aggregator-owned state of `Metric` in `breaker/internal/metric.go`:
the window size in seconds, the ring of optional per-second buckets
(`[]*UnitCounter`, `nil` entries are `none`), and the last-X timestamps. -/
structure Metric where
  timeWindow : Nat
  counters : List (Option UnitCounter)
  lastExecuteTime : Nat
  lastSuccessTime : Nat
  lastTimeoutTime : Nat
  lastFailureTime : Nat
  lastResetTime : Nat
  deriving DecidableEq, Repr

/-- `NewMetric` of `breaker/internal/metric.go` after the options ran: the
ring has `timeWindow/time.Second` entries, all `nil`. -/
def NewMetric (w : Nat) : Metric :=
  { timeWindow := w
    counters := List.replicate w none
    lastExecuteTime := 0
    lastSuccessTime := 0
    lastTimeoutTime := 0
    lastFailureTime := 0
    lastResetTime := 0 }

/-- `Metric.getCurrentCounter` of `breaker/internal/metric.go`.  Returns the
bucket that the increment will be applied to (freshly allocated when the
slot is `nil`, reset in place when its stored second differs from `now`,
with `LastRecordTime` set to `now`) together with the ring index it is
stored back into. -/
def Metric.getCurrentCounter (m : Metric) (now : Nat) : UnitCounter × Nat :=
  let index := (now % 60) % m.counters.length
  let c : UnitCounter :=
    match m.counters[index]? with
    | none => UnitCounter.zero
    | some none => UnitCounter.zero
    | some (some c0) => if now ≠ c0.lastRecordTime then c0.Reset else c0
  ({ c with lastRecordTime := now }, index)

/-- Store an updated bucket back through the pointer returned by
`getCurrentCounter` (in Go the pointer aliases the ring slot). -/
def Metric.putCounter (m : Metric) (i : Nat) (c : UnitCounter) : Metric :=
  { m with counters := m.counters.set i (some c) }

/-- `Metric.doSuccess` of `breaker/internal/metric.go`. -/
def Metric.doSuccess (m : Metric) (now : Nat) : Metric :=
  let m1 := { m with lastExecuteTime := now, lastSuccessTime := now }
  let p := m1.getCurrentCounter now
  m1.putCounter p.2 { p.1 with success := p.1.success + 1 }

/-- `Metric.doTimeout` of `breaker/internal/metric.go`: increments the
bucket's `Timeout`, then fetches the current bucket again (same `now`, so
no reset happens) and increments its `Failure` too. -/
def Metric.doTimeout (m : Metric) (now : Nat) : Metric :=
  let m1 := { m with lastExecuteTime := now, lastTimeoutTime := now }
  let p := m1.getCurrentCounter now
  let m2 := m1.putCounter p.2 { p.1 with timeout := p.1.timeout + 1 }
  let q := m2.getCurrentCounter now
  m2.putCounter q.2 { q.1 with failure := q.1.failure + 1 }

/-- `Metric.doFailure` of `breaker/internal/metric.go`. -/
def Metric.doFailure (m : Metric) (now : Nat) : Metric :=
  let m1 := { m with lastExecuteTime := now, lastFailureTime := now }
  let p := m1.getCurrentCounter now
  m1.putCounter p.2 { p.1 with failure := p.1.failure + 1 }

/-- `Metric.doFallbackSuccess` of `breaker/internal/metric.go`. -/
def Metric.doFallbackSuccess (m : Metric) (now : Nat) : Metric :=
  let m1 := { m with lastExecuteTime := now }
  let p := m1.getCurrentCounter now
  m1.putCounter p.2 { p.1 with fallbackSuccess := p.1.fallbackSuccess + 1 }

/-- `Metric.doFallbackFailure` of `breaker/internal/metric.go`. -/
def Metric.doFallbackFailure (m : Metric) (now : Nat) : Metric :=
  let m1 := { m with lastExecuteTime := now }
  let p := m1.getCurrentCounter now
  m1.putCounter p.2 { p.1 with fallbackFailure := p.1.fallbackFailure + 1 }

/-- `Metric.doReset` of `breaker/internal/metric.go`: records the reset
time and replaces the ring by a fresh all-`nil` one. -/
def Metric.doReset (m : Metric) (now : Nat) : Metric :=
  { m with lastResetTime := now, counters := List.replicate m.timeWindow none }

/-- A timestamped event consumed by the aggregator goroutine of
`Metric.run` in `breaker/internal/metric.go`. -/
inductive MetricEvent where
  | success (t : Nat)
  | timeout (t : Nat)
  | failure (t : Nat)
  | fallbackSuccess (t : Nat)
  | fallbackFailure (t : Nat)
  | reset (t : Nat)
  deriving DecidableEq, Repr

/-- One iteration of the aggregator loop of `Metric.run`. -/
def Metric.applyEvent (m : Metric) : MetricEvent → Metric
  | .success t => m.doSuccess t
  | .timeout t => m.doTimeout t
  | .failure t => m.doFailure t
  | .fallbackSuccess t => m.doFallbackSuccess t
  | .fallbackFailure t => m.doFallbackFailure t
  | .reset t => m.doReset t

/-- The aggregator applied to a whole history of events, in the order in
which the `select` loop picked them up. -/
def Metric.applyEvents (m : Metric) (es : List MetricEvent) : Metric :=
  es.foldl Metric.applyEvent m

/-- The running totals accumulated by the loop of `Metric.makeSummary`. -/
structure SummaryAcc where
  success : Nat
  timeout : Nat
  failure : Nat
  fallbackSuccess : Nat
  fallbackFailure : Nat
  deriving DecidableEq, Repr

def SummaryAcc.zero : SummaryAcc := ⟨0, 0, 0, 0, 0⟩

/-- The body of the loop in `Metric.makeSummary`: skip `nil` buckets, skip
buckets whose last record is older than the window, add the rest. -/
def summaryStep (w now : Nat) (acc : SummaryAcc) : Option UnitCounter → SummaryAcc
  | none => acc
  | some c =>
    if now - c.lastRecordTime > w then acc
    else
      { success := acc.success + c.success
        timeout := acc.timeout + c.timeout
        failure := acc.failure + c.failure
        fallbackSuccess := acc.fallbackSuccess + c.fallbackSuccess
        fallbackFailure := acc.fallbackFailure + c.fallbackFailure }

/-- `Metric.makeSummary` of `breaker/internal/metric.go`, evaluated with
the aggregator running at time `now`. -/
def Metric.makeSummary (m : Metric) (now : Nat) : MetricSummary :=
  let acc := m.counters.foldl (summaryStep m.timeWindow now) SummaryAcc.zero
  let total := acc.success + acc.failure
  { success := acc.success
    timeout := acc.timeout
    failure := acc.failure
    fallbackSuccess := acc.fallbackSuccess
    fallbackFailure := acc.fallbackFailure
    total := total
    errorPercentage :=
      if total = 0 then 0 else (acc.failure : ℚ) / (total : ℚ) * 100
    lastExecuteTime := m.lastExecuteTime
    lastSuccessTime := m.lastSuccessTime
    lastTimeoutTime := m.lastTimeoutTime
    lastFailureTime := m.lastFailureTime }

/-- Invariant of the aggregator ring: every allocated bucket counts at
most as many timeouts as failures (`doTimeout` bumps both). -/
def CountersOk (l : List (Option UnitCounter)) : Prop :=
  ∀ u : UnitCounter, some u ∈ l → u.timeout ≤ u.failure

end Internal

namespace Breaker

/-- The three values of the `int32` status word of package `breaker`
(`Closed`, `Openning`, `HalfOpening`). -/
inductive CutStatus where
  | Closed
  | Openning
  | HalfOpening
  deriving DecidableEq, Repr

/-- `atomic.CompareAndSwapInt32` on the status word, in the sequential
semantics of a single caller: returns the new stored value and whether
the swap happened. -/
def casStatus (current old new : CutStatus) : CutStatus × Bool :=
  if current = old then (new, true) else (current, false)

/-- `CutBreaker` of `breaker/cutbreaker.go`.  `errorThresholdPercentage`
is a Go `float64` (modelled by `ℚ`); `sleepWindow` and `timeWindow` are
in whole seconds. -/
structure CutBreaker where
  name : String
  metric : Internal.Metric
  internalStatus : CutStatus
  minRequestThreshold : Int
  errorThresholdPercentage : ℚ
  sleepWindow : Nat
  timeWindow : Nat
  deriving DecidableEq, Repr

/-- `NewCutBreaker` after its options ran (the test and `NewCommand` call
sites always set the four numeric options; Go defaults are 20, 50, 5s,
5s).  The owned Metric's ring spans `timeWindow` seconds. -/
def NewCutBreaker (name : String) (minRequestThreshold : Int)
    (errorThresholdPercentage : ℚ) (sleepWindow timeWindow : Nat) : CutBreaker :=
  { name := name
    metric := Internal.NewMetric timeWindow
    internalStatus := CutStatus.Closed
    minRequestThreshold := minRequestThreshold
    errorThresholdPercentage := errorThresholdPercentage
    sleepWindow := sleepWindow
    timeWindow := timeWindow }

/-- `CutBreaker.allow` of `breaker/cutbreaker.go`, at wall-clock time
`now` (`time.Since(x) = now - x`).  Returns the breaker after the CAS it
may perform, the admit flag and the status text. -/
def CutBreaker.allow (b : CutBreaker) (summary : Internal.MetricSummary) (now : Nat) :
    CutBreaker × Bool × String :=
  match b.internalStatus with
  | CutStatus.Closed =>
    if (summary.total : Int) < b.minRequestThreshold
        ∨ summary.errorPercentage < b.errorThresholdPercentage then
      (b, true, "closed")
    else
      let r := casStatus b.internalStatus CutStatus.Closed CutStatus.Openning
      ({ b with internalStatus := r.1 }, false, "open")
  | CutStatus.HalfOpening => (b, false, "half-open")
  | CutStatus.Openning =>
    if (now : Int) - (summary.lastExecuteTime : Int) < (b.sleepWindow : Int) then
      (b, false, "open")
    else
      let r := casStatus b.internalStatus CutStatus.Openning CutStatus.HalfOpening
      ({ b with internalStatus := r.1 }, r.2, "half-open")

/-- `CutBreaker.Allow`: fetch the summary from the owned metric, then
decide. -/
def CutBreaker.Allow (b : CutBreaker) (now : Nat) : CutBreaker × Bool × String :=
  b.allow (b.metric.makeSummary now) now

/-- `CutBreaker.Success` of `breaker/cutbreaker.go`: in `HalfOpening`,
`metric.Reset()` first, then CAS HalfOpening→Closed; in every state the
method then records `metric.Success()`. -/
def CutBreaker.Success (b : CutBreaker) (t : Nat) : CutBreaker :=
  let b1 :=
    if b.internalStatus = CutStatus.HalfOpening then
      let m1 := b.metric.applyEvent (Internal.MetricEvent.reset t)
      let r := casStatus b.internalStatus CutStatus.HalfOpening CutStatus.Closed
      { b with metric := m1, internalStatus := r.1 }
    else b
  { b1 with metric := b1.metric.applyEvent (Internal.MetricEvent.success t) }

/-- `CutBreaker.Failure`: CAS HalfOpening→Openning, then record. -/
def CutBreaker.Failure (b : CutBreaker) (t : Nat) : CutBreaker :=
  let r := casStatus b.internalStatus CutStatus.HalfOpening CutStatus.Openning
  { b with internalStatus := r.1
           metric := b.metric.applyEvent (Internal.MetricEvent.failure t) }

/-- `CutBreaker.Timeout`: CAS HalfOpening→Openning, then record. -/
def CutBreaker.Timeout (b : CutBreaker) (t : Nat) : CutBreaker :=
  let r := casStatus b.internalStatus CutStatus.HalfOpening CutStatus.Openning
  { b with internalStatus := r.1
           metric := b.metric.applyEvent (Internal.MetricEvent.timeout t) }

/-- `CutBreaker.FallbackSuccess`: records `metric.FallbackSuccess()`. -/
def CutBreaker.FallbackSuccess (b : CutBreaker) (t : Nat) : CutBreaker :=
  { b with metric := b.metric.applyEvent (Internal.MetricEvent.fallbackSuccess t) }

/-- `CutBreaker.FallbackFailure` of `breaker/cutbreaker.go`: the body
calls `b.metric.FallbackSuccess()` (this is what the source does). -/
def CutBreaker.FallbackFailure (b : CutBreaker) (t : Nat) : CutBreaker :=
  { b with metric := b.metric.applyEvent (Internal.MetricEvent.fallbackSuccess t) }

/-- `SreBreaker` of `breaker/srebreaker.go` (the version whose `allow`
admits on `currentProb > rejectProb`).  `k` is a Go `float64`. -/
structure SreBreaker where
  name : String
  metric : Internal.Metric
  k : ℚ
  timeWindow : Nat
  deriving DecidableEq, Repr

/-- `NewSreBreaker` after its options ran (Go defaults: `k = 1.5`,
window 2 minutes). -/
def NewSreBreaker (name : String) (k : ℚ) (timeWindow : Nat) : SreBreaker :=
  { name := name
    metric := Internal.NewMetric timeWindow
    k := k
    timeWindow := timeWindow }

/-- `SreBreaker.getRejectionProbability`:
`max(0, (total - k*success) / (total + 1))`. -/
def SreBreaker.getRejectionProbability (b : SreBreaker)
    (summary : Internal.MetricSummary) : ℚ :=
  max 0 (((summary.total : ℚ) - b.k * (summary.success : ℚ)) / ((summary.total : ℚ) + 1))

/-- Decimal formatting standing in for Go's `%3.3f` (three digits after
the point; the width 3 never pads for the probabilities involved).  The
float-to-decimal rounding is modelled as round-half-up on the exact
rational. -/
def fmt3 (q : ℚ) : String :=
  let n : Int := ⌊|q| * 1000 + 1 / 2⌋
  let np := n.toNat
  let ip := np / 1000
  let fp := np % 1000
  let pad := if fp < 10 then "00" else if fp < 100 then "0" else ""
  (if q < 0 ∧ np ≠ 0 then "-" else "") ++ toString ip ++ "." ++ pad ++ toString fp

/-- `SreBreaker.allow` of `breaker/srebreaker.go`: `currentProb` is the
value drawn from `rand.Float64()`; admit iff it exceeds the rejection
probability. -/
def SreBreaker.allow (b : SreBreaker) (summary : Internal.MetricSummary)
    (currentProb : ℚ) : Bool × String :=
  let rejectProb := b.getRejectionProbability summary
  (decide (currentProb > rejectProb),
   "rejection probability = " ++ fmt3 rejectProb ++ ", this time = " ++ fmt3 currentProb)

/-- `SreBreaker.Success`. -/
def SreBreaker.Success (b : SreBreaker) (t : Nat) : SreBreaker :=
  { b with metric := b.metric.applyEvent (Internal.MetricEvent.success t) }

/-- `SreBreaker.Failure`. -/
def SreBreaker.Failure (b : SreBreaker) (t : Nat) : SreBreaker :=
  { b with metric := b.metric.applyEvent (Internal.MetricEvent.failure t) }

/-- `SreBreaker.Timeout`. -/
def SreBreaker.Timeout (b : SreBreaker) (t : Nat) : SreBreaker :=
  { b with metric := b.metric.applyEvent (Internal.MetricEvent.timeout t) }

/-- `SreBreaker.FallbackSuccess`. -/
def SreBreaker.FallbackSuccess (b : SreBreaker) (t : Nat) : SreBreaker :=
  { b with metric := b.metric.applyEvent (Internal.MetricEvent.fallbackSuccess t) }

/-- `SreBreaker.FallbackFailure` of `breaker/srebreaker.go`: the body
calls `b.metric.FallbackSuccess()` (this is what the source does). -/
def SreBreaker.FallbackFailure (b : SreBreaker) (t : Nat) : SreBreaker :=
  { b with metric := b.metric.applyEvent (Internal.MetricEvent.fallbackSuccess t) }

/-- One in-flight `CutBreaker.allow` call in the interleaving model of
the probe race: its private summary and clock, the status value its
`switch` read (if it ran yet), and its result (if it finished). -/
structure ProbeThread where
  summary : Internal.MetricSummary
  now : Nat
  seen : Option CutStatus
  res : Option (Bool × String)
  deriving DecidableEq, Repr

/-- The shared state of the probe race: the breaker's status word plus
the in-flight calls. -/
structure ProbeSys where
  status : CutStatus
  threads : List ProbeThread
  deriving DecidableEq, Repr

/-- An `Allow` call that has not started. -/
def initThread (s : Internal.MetricSummary) (now : Nat) : ProbeThread :=
  { summary := s, now := now, seen := none, res := none }

/-- One scheduler step of the interleaving semantics of
`CutBreaker.allow`: thread `i` performs its next atomic action — first
the read of the status word (the `switch`), later its branch body, whose
only shared-state access is the CAS on the status word. -/
def probeStep (b : CutBreaker) (sys : ProbeSys) (i : Nat) : ProbeSys :=
  match sys.threads[i]? with
  | none => sys
  | some th =>
    match th.seen with
    | none =>
      { sys with threads := sys.threads.set i { th with seen := some sys.status } }
    | some st =>
      match th.res with
      | some _ => sys
      | none =>
        match st with
        | CutStatus.Closed =>
          if (th.summary.total : Int) < b.minRequestThreshold
              ∨ th.summary.errorPercentage < b.errorThresholdPercentage then
            { sys with
              threads := sys.threads.set i { th with res := some (true, "closed") } }
          else
            let r := casStatus sys.status CutStatus.Closed CutStatus.Openning
            { sys with status := r.1
                       threads := sys.threads.set i { th with res := some (false, "open") } }
        | CutStatus.HalfOpening =>
          { sys with
            threads := sys.threads.set i { th with res := some (false, "half-open") } }
        | CutStatus.Openning =>
          if (th.now : Int) - (th.summary.lastExecuteTime : Int) < (b.sleepWindow : Int) then
            { sys with
              threads := sys.threads.set i { th with res := some (false, "open") } }
          else
            let r := casStatus sys.status CutStatus.Openning CutStatus.HalfOpening
            { sys with status := r.1
                       threads := sys.threads.set i { th with res := some (r.2, "half-open") } }

/-- Run an arbitrary schedule of thread actions. -/
def probeRun (b : CutBreaker) (sys : ProbeSys) (sched : List Nat) : ProbeSys :=
  sched.foldl (probeStep b) sys

/-- A finished call whose first result component is `true`. -/
def isAdmitted (th : ProbeThread) : Bool :=
  match th.res with
  | some (true, _) => true
  | _ => false

/-- Number of admitted calls. -/
def admittedCount (sys : ProbeSys) : Nat :=
  sys.threads.countP isAdmitted

/-- Inductive invariant of the probe race started in `Openning`: the
status word has moved at most once, to `HalfOpening`, and exactly the
winner of that CAS is admitted (with status text `"half-open"`);
observers of `HalfOpening` are rejected. -/
def ProbeInv (status : CutStatus) (threads : List ProbeThread) : Prop :=
  ((status = CutStatus.Openning ∧ threads.countP isAdmitted = 0)
    ∨ (status = CutStatus.HalfOpening ∧ threads.countP isAdmitted = 1))
  ∧ (∀ th ∈ threads, th.seen ≠ some CutStatus.Closed)
  ∧ (∀ th ∈ threads, ∀ r s, th.res = some (r, s) → r = true → s = "half-open")
  ∧ (∀ th ∈ threads, th.seen = some CutStatus.HalfOpening →
      th.res = none ∨ th.res = some (false, "half-open"))
  ∧ (∀ th ∈ threads, th.seen = none → th.res = none)

end Breaker

/-- Go error values as built by this library: a sentinel created by
`errors.New`, or a wrap `fmt.Errorf("<pre>: %w", inner)` (with `pre`
holding everything before the final `%w`). -/
inductive GoError where
  | sentinel (msg : String)
  | wrapped (pre : String) (inner : GoError)
  deriving DecidableEq, Repr

/-- `err.Error()`: the rendered message. -/
def GoError.Error : GoError → String
  | GoError.sentinel m => m
  | GoError.wrapped p e => p ++ ": " ++ e.Error

/-- `errors.Is`: the target is the error itself or appears somewhere
down the `%w` chain. -/
def errorsIs : GoError → GoError → Bool
  | GoError.sentinel m, target => decide (GoError.sentinel m = target)
  | GoError.wrapped p inner, target =>
      decide (GoError.wrapped p inner = target) || errorsIs inner target

/-- `ErrTimeout = errors.New("command: timeout")` of `command.go`. -/
def ErrTimeout : GoError := GoError.sentinel "command: timeout"

/-- `ErrFallback = errors.New("command: unavailable")` of `command.go`. -/
def ErrFallback : GoError := GoError.sentinel "command: unavailable"

/-- `Command` of `command.go`, bound to a `CutBreaker` (the default
breaker kind).  The user functions are modelled by their observable
behavior: the fallback is a function from the passed param and error to
`(value, err, duration-in-seconds)`; the run function's behavior is
supplied per call to `ContextExecute`. -/
structure Command where
  name : String
  timeout : Nat
  breaker : Breaker.CutBreaker
  fallback : Option (Option String → GoError → Option String × Option GoError × Nat)

/-- The result of one `ContextExecute` call, together with the breaker
state it left behind and whether `run` was started. -/
structure ExecResult where
  breaker : Breaker.CutBreaker
  value : Option String
  error : Option GoError
  runInvoked : Bool
  deriving DecidableEq, Repr

/-- `Command.executeFallback` composed with
`wrapCommandFallbackFuncWithTimeout` of `command.go`: the fallback runs
under a fresh `command.timeout` deadline; on deadline it records
`FallbackFailure` and returns `<name>: command: timeout`; otherwise it
records `FallbackFailure`/`FallbackSuccess` by the fallback's error and
returns its outcome.  `t` is the wall-clock start. -/
def executeFallback (cmd : Command) (b : Breaker.CutBreaker)
    (fb : Option String → GoError → Option String × Option GoError × Nat)
    (param : Option String) (err : GoError) (t : Nat) :
    Breaker.CutBreaker × Option String × Option GoError :=
  let r := fb param err
  if r.2.2 < cmd.timeout then
    match r.2.1 with
    | some _ => (b.FallbackFailure (t + r.2.2), r.1, r.2.1)
    | none => (b.FallbackSuccess (t + r.2.2), r.1, r.2.1)
  else
    (b.FallbackFailure (t + cmd.timeout), none, some (GoError.wrapped cmd.name ErrTimeout))

/-- `wrapCommandFuncWithTimeout` of `command.go`: run the target under
the `command.timeout` deadline.  If `run` finishes first it records
Success/Failure by its error and returns its outcome; on deadline it
records `Timeout` on the breaker and returns `<name>: command: timeout`
(ties go to the deadline). -/
def wrapRunWithTimeout (cmd : Command) (b : Breaker.CutBreaker)
    (runVal : Option String) (runErr : Option GoError) (runDur t : Nat) :
    Breaker.CutBreaker × Option String × Option GoError :=
  if runDur < cmd.timeout then
    match runErr with
    | some _ => (b.Failure (t + runDur), runVal, runErr)
    | none => (b.Success (t + runDur), runVal, runErr)
  else
    (b.Timeout (t + cmd.timeout), none, some (GoError.wrapped cmd.name ErrTimeout))

/-- `Command.ContextExecute` of `command.go` at wall-clock time `t`:
ask the breaker; on rejection synthesize `<name>: <status>: %w(ErrFallback)`
and short-circuit to the fallback (or return the error); on admission run
the wrapped target, and route a non-nil error to the fallback (which is
invoked with the run's result as its param, as the source does). -/
def ContextExecute (cmd : Command) (param runVal : Option String)
    (runErr : Option GoError) (runDur t : Nat) : ExecResult :=
  let ar := cmd.breaker.Allow t
  if ar.2.1 then
    let rr := wrapRunWithTimeout cmd ar.1 runVal runErr runDur t
    match rr.2.2 with
    | some e =>
      match cmd.fallback with
      | none => { breaker := rr.1, value := none, error := some e, runInvoked := true }
      | some fb =>
        let fr := executeFallback cmd rr.1 fb rr.2.1 e (t + min runDur cmd.timeout)
        { breaker := fr.1, value := fr.2.1, error := fr.2.2, runInvoked := true }
    | none => { breaker := rr.1, value := rr.2.1, error := none, runInvoked := true }
  else
    let openErr := GoError.wrapped (cmd.name ++ ": " ++ ar.2.2) ErrFallback
    match cmd.fallback with
    | none => { breaker := ar.1, value := none, error := some openErr, runInvoked := false }
    | some fb =>
      let fr := executeFallback cmd ar.1 fb param openErr t
      { breaker := fr.1, value := fr.2.1, error := fr.2.2, runInvoked := false }

/-- The command of scenario S4: 2 s timeout, `NewCommand`'s default
CutBreaker thresholds, fallback returning `"fallback"` instantly. -/
def s4Command : Command :=
  { name := "test"
    timeout := 2
    breaker := Breaker.NewCutBreaker "test" 10 50 5 5
    fallback := some (fun _ _ => (some "fallback", none, 0)) }

/-- A command without fallback, used to instantiate the general
timeout theorem. -/
def timeoutWitnessCommand : Command :=
  { name := "w"
    timeout := 2
    breaker := Breaker.NewCutBreaker "w" 10 50 5 5
    fallback := none }

/-- A fallback-less command whose breaker is `Openning` with a fresh
metric, used to instantiate the short-circuit theorem. -/
def rejectedWitnessCommand : Command :=
  { name := "w"
    timeout := 2
    breaker := { Breaker.NewCutBreaker "w" 10 50 5 5 with
      internalStatus := Breaker.CutStatus.Openning }
    fallback := none }

namespace Draft

/-- `UnitCounter` of the draft `metric.go` at the repository root. -/
structure UnitCounter where
  success : Nat
  timeout : Nat
  failure : Nat
  fallbackSuccess : Nat
  fallbackFailure : Nat
  lastRecordTime : Nat
  deriving DecidableEq, Repr

/-- The zero value `&UnitCounter{}`. -/
def UnitCounter.zero : UnitCounter := ⟨0, 0, 0, 0, 0, 0⟩

/-- `UnitCounter.Reset` of the draft `metric.go`. -/
def UnitCounter.Reset (_c : UnitCounter) : UnitCounter := UnitCounter.zero

/-- `HealthSummary` of the draft `metric.go`. -/
structure HealthSummary where
  success : Nat
  timeout : Nat
  failure : Nat
  fallbackSuccess : Nat
  fallbackFailure : Nat
  total : Nat
  errorPercentage : ℚ
  lastExecuteTime : Nat
  lastSuccessTime : Nat
  lastTimeoutTime : Nat
  lastFailureTime : Nat
  deriving DecidableEq, Repr

/-- The mutable state of the draft `Metric` of `metric.go`. -/
structure Metric where
  timeWindow : Nat
  counters : List (Option UnitCounter)
  lastExecuteTime : Nat
  lastSuccessTime : Nat
  lastTimeoutTime : Nat
  lastFailureTime : Nat
  lastResetTime : Nat
  deriving DecidableEq, Repr

/-- `newMetric` of the draft `metric.go`: an all-`nil` ring of
`timeWindow` one-second slots. -/
def newMetric (w : Nat) : Metric :=
  { timeWindow := w
    counters := List.replicate w none
    lastExecuteTime := 0
    lastSuccessTime := 0
    lastTimeoutTime := 0
    lastFailureTime := 0
    lastResetTime := 0 }

/-- The running totals of the loop in the draft `GetHealthSummary`. -/
structure HealthAcc where
  success : Nat
  timeout : Nat
  failure : Nat
  fallbackSuccess : Nat
  fallbackFailure : Nat
  deriving DecidableEq, Repr

def HealthAcc.zero : HealthAcc := ⟨0, 0, 0, 0, 0⟩

/-- The Go panic message of a nil-pointer dereference. -/
def nilDerefMsg : String :=
  "runtime error: invalid memory address or nil pointer dereference"

/-- The loop of the draft `GetHealthSummary`: the nil check is inverted
(`if counter != nil { continue }`), so non-nil buckets are skipped and a
nil bucket falls through to `time.Since(counter.LastRecordTime)`, which
dereferences the nil pointer and panics. -/
def healthLoop (w now : Nat) (acc : HealthAcc) :
    List (Option UnitCounter) → Except String HealthAcc
  | [] => Except.ok acc
  | some _ :: rest => healthLoop w now acc rest
  | none :: _ => Except.error nilDerefMsg

/-- `Metric.GetHealthSummary` of the draft `metric.go`: a panic is
surfaced as `Except.error`. -/
def Metric.GetHealthSummary (m : Metric) (now : Nat) : Except String HealthSummary :=
  match healthLoop m.timeWindow now HealthAcc.zero m.counters with
  | Except.error e => Except.error e
  | Except.ok acc =>
    let total := acc.success + acc.failure
    Except.ok
      { success := acc.success
        timeout := acc.timeout
        failure := acc.failure
        fallbackSuccess := acc.fallbackSuccess
        fallbackFailure := acc.fallbackFailure
        total := total
        errorPercentage :=
          if total = 0 then 0 else (acc.failure : ℚ) / (total : ℚ) * 100
        lastExecuteTime := m.lastExecuteTime
        lastSuccessTime := m.lastSuccessTime
        lastTimeoutTime := m.lastTimeoutTime
        lastFailureTime := m.lastFailureTime }

/-- `Metric.getCurrentCounter` of the draft `metric.go`.  Returns the
counter the caller will increment and the ring index the returned
pointer aliases: in the nil-slot branch the freshly allocated counter is
never stored back into `metric.counters`, so the alias is `none` and
every mutation through the pointer is lost. -/
def Metric.getCurrentCounter (m : Metric) (now : Nat) : UnitCounter × Option Nat :=
  let index := (now % 60) % m.counters.length
  match m.counters[index]? with
  | none => ({ UnitCounter.zero with lastRecordTime := now }, none)
  | some none => ({ UnitCounter.zero with lastRecordTime := now }, none)
  | some (some c0) =>
    let c1 := if now ≠ c0.lastRecordTime then c0.Reset else c0
    ({ c1 with lastRecordTime := now }, some index)

/-- Write through the pointer returned by the draft `getCurrentCounter`:
visible in the ring only when the pointer aliases a ring slot. -/
def writeBack (m : Metric) (aliasIdx : Option Nat) (c : UnitCounter) : Metric :=
  match aliasIdx with
  | none => m
  | some i => { m with counters := m.counters.set i (some c) }

/-- `Metric.doSuccess` of the draft `metric.go`. -/
def Metric.doSuccess (m : Metric) (now : Nat) : Metric :=
  let m1 := { m with lastExecuteTime := now, lastSuccessTime := now }
  let p := m1.getCurrentCounter now
  writeBack m1 p.2 { p.1 with success := p.1.success + 1 }

/-- `Metric.doTimeout` of the draft `metric.go`. -/
def Metric.doTimeout (m : Metric) (now : Nat) : Metric :=
  let m1 := { m with lastExecuteTime := now, lastTimeoutTime := now }
  let p := m1.getCurrentCounter now
  let m2 := writeBack m1 p.2 { p.1 with timeout := p.1.timeout + 1 }
  let q := m2.getCurrentCounter now
  writeBack m2 q.2 { q.1 with failure := q.1.failure + 1 }

/-- `Metric.doFailure` of the draft `metric.go`. -/
def Metric.doFailure (m : Metric) (now : Nat) : Metric :=
  let m1 := { m with lastExecuteTime := now, lastFailureTime := now }
  let p := m1.getCurrentCounter now
  writeBack m1 p.2 { p.1 with failure := p.1.failure + 1 }

/-- `Metric.doFallbackSuccess` of the draft `metric.go`. -/
def Metric.doFallbackSuccess (m : Metric) (now : Nat) : Metric :=
  let m1 := { m with lastExecuteTime := now }
  let p := m1.getCurrentCounter now
  writeBack m1 p.2 { p.1 with fallbackSuccess := p.1.fallbackSuccess + 1 }

/-- `Metric.doFallbackFailure` of the draft `metric.go`. -/
def Metric.doFallbackFailure (m : Metric) (now : Nat) : Metric :=
  let m1 := { m with lastExecuteTime := now }
  let p := m1.getCurrentCounter now
  writeBack m1 p.2 { p.1 with fallbackFailure := p.1.fallbackFailure + 1 }

/-- `Metric.doReset` of the draft `metric.go`. -/
def Metric.doReset (m : Metric) (now : Nat) : Metric :=
  { m with lastResetTime := now, counters := List.replicate m.timeWindow none }

/-- Timestamped events consumed by the draft aggregator `Run` loop. -/
inductive MetricEvent where
  | success (t : Nat)
  | timeout (t : Nat)
  | failure (t : Nat)
  | fallbackSuccess (t : Nat)
  | fallbackFailure (t : Nat)
  | reset (t : Nat)
  deriving DecidableEq, Repr

def Metric.applyEvent (m : Metric) : MetricEvent → Metric
  | MetricEvent.success t => m.doSuccess t
  | MetricEvent.timeout t => m.doTimeout t
  | MetricEvent.failure t => m.doFailure t
  | MetricEvent.fallbackSuccess t => m.doFallbackSuccess t
  | MetricEvent.fallbackFailure t => m.doFallbackFailure t
  | MetricEvent.reset t => m.doReset t

def Metric.applyEvents (m : Metric) (es : List MetricEvent) : Metric :=
  es.foldl Metric.applyEvent m

/-- `BreakerStatus` of the draft `breaker.go`. -/
inductive BreakerStatus where
  | Closed
  | Openning
  | HalfOpening
  deriving DecidableEq, Repr

/-- The pointer values handled by the draft `breaker.go` CAS calls:
the address of the `status` field and the addresses of the package-level
variables `closed`, `openning`, `halfOpening`.  Distinct constructors
model distinct addresses. -/
inductive GoPtr where
  | fieldStatus
  | varClosed
  | varOpenning
  | varHalfOpening
  deriving DecidableEq, Repr

/-- `atomic.CompareAndSwapPointer` on a cell holding a pointer value:
returns the cell's new content and whether the swap happened. -/
def compareAndSwapPointer (cell old new : GoPtr) : GoPtr × Bool :=
  if cell = old then (new, true) else (cell, false)

/-- Every CAS in the draft `breaker.go` is
`status := &breaker.status; atomic.CompareAndSwapPointer((*unsafe.Pointer)(unsafe.Pointer(&status)), unsafe.Pointer(&oldVar), unsafe.Pointer(&newVar))`:
the compared-and-swapped cell is the local variable `status`, whose
content is the pointer `&breaker.status` (`GoPtr.fieldStatus`).
`breaker.status` itself is not an operand, so the call can only
overwrite the local pointer, and only if `&breaker.status == &oldVar`
(addresses of distinct objects, never equal). -/
def casOnLocalStatusVar (old new : GoPtr) : GoPtr × Bool :=
  compareAndSwapPointer GoPtr.fieldStatus old new

/-- `Breaker` of the draft `breaker.go`. -/
structure Breaker where
  name : String
  metric : Metric
  status : BreakerStatus
  minRequestThreshold : Int
  errorThresholdPercentage : ℚ
  sleepWindow : Nat
  timeWindow : Nat
  deriving DecidableEq, Repr

/-- `NewBreaker` of the draft `breaker.go` after its options ran
(defaults 20, 50, 5 s; the window must be 1–60 s to pass
`WithMetricCounterSize`). -/
def NewBreaker (name : String) (minRequestThreshold : Int)
    (errorThresholdPercentage : ℚ) (sleepWindow timeWindow : Nat) : Breaker :=
  { name := name
    metric := newMetric timeWindow
    status := BreakerStatus.Closed
    minRequestThreshold := minRequestThreshold
    errorThresholdPercentage := errorThresholdPercentage
    sleepWindow := sleepWindow
    timeWindow := timeWindow }

/-- `Breaker.IsOpen` of the draft `breaker.go`.  A `GetHealthSummary`
panic propagates.  The CAS calls operate on the local pointer variable
(see `casOnLocalStatusVar`), so the breaker itself is returned
unchanged from every branch. -/
def Breaker.IsOpen (b : Breaker) (now : Nat) : Except String (Breaker × Bool) :=
  match b.metric.GetHealthSummary now with
  | Except.error e => Except.error e
  | Except.ok hs =>
    match b.status with
    | BreakerStatus.Closed =>
      if (hs.total : Int) < b.minRequestThreshold
          ∨ hs.errorPercentage < b.errorThresholdPercentage then
        Except.ok (b, false)
      else
        let _r := casOnLocalStatusVar GoPtr.varClosed GoPtr.varOpenning
        Except.ok (b, true)
    | BreakerStatus.HalfOpening => Except.ok (b, true)
    | BreakerStatus.Openning =>
      if (now : Int) - (hs.lastExecuteTime : Int) < (b.sleepWindow : Int) then
        Except.ok (b, true)
      else
        let r := casOnLocalStatusVar GoPtr.varOpenning GoPtr.varHalfOpening
        Except.ok (b, !r.2)

/-- `Breaker.Success` of the draft `breaker.go`: in `HalfOpening` it
resets the metric, runs the local-variable CAS and returns without
recording; otherwise it records a Success. -/
def Breaker.Success (b : Breaker) (t : Nat) : Breaker :=
  if b.status = BreakerStatus.HalfOpening then
    let b1 := { b with metric := b.metric.applyEvent (MetricEvent.reset t) }
    let _r := casOnLocalStatusVar GoPtr.varHalfOpening GoPtr.varClosed
    b1
  else { b with metric := b.metric.applyEvent (MetricEvent.success t) }

/-- `Breaker.Failure` of the draft `breaker.go`. -/
def Breaker.Failure (b : Breaker) (t : Nat) : Breaker :=
  if b.status = BreakerStatus.HalfOpening then
    let _r := casOnLocalStatusVar GoPtr.varHalfOpening GoPtr.varOpenning
    b
  else { b with metric := b.metric.applyEvent (MetricEvent.failure t) }

/-- `Breaker.Timeout` of the draft `breaker.go`. -/
def Breaker.Timeout (b : Breaker) (t : Nat) : Breaker :=
  if b.status = BreakerStatus.HalfOpening then
    let _r := casOnLocalStatusVar GoPtr.varHalfOpening GoPtr.varOpenning
    b
  else { b with metric := b.metric.applyEvent (MetricEvent.timeout t) }

/-- `Breaker.FallbackSuccess` of the draft `breaker.go`. -/
def Breaker.FallbackSuccess (b : Breaker) (t : Nat) : Breaker :=
  { b with metric := b.metric.applyEvent (MetricEvent.fallbackSuccess t) }

/-- `Breaker.FallbackFailure` of the draft `breaker.go` (it too calls
`metric.FallbackSuccess()`). -/
def Breaker.FallbackFailure (b : Breaker) (t : Nat) : Breaker :=
  { b with metric := b.metric.applyEvent (MetricEvent.fallbackSuccess t) }

/-- Calls a client can make on the draft `Breaker`. -/
inductive BreakerOp where
  | isOpen (now : Nat)
  | success (t : Nat)
  | failure (t : Nat)
  | timeout (t : Nat)
  | fallbackSuccess (t : Nat)
  | fallbackFailure (t : Nat)
  deriving DecidableEq, Repr

/-- Apply one call; a panic inside `IsOpen` leaves the breaker as it
was. -/
def Breaker.applyOp (b : Breaker) : BreakerOp → Breaker
  | BreakerOp.isOpen now =>
    match b.IsOpen now with
    | Except.ok p => p.1
    | Except.error _ => b
  | BreakerOp.success t => b.Success t
  | BreakerOp.failure t => b.Failure t
  | BreakerOp.timeout t => b.Timeout t
  | BreakerOp.fallbackSuccess t => b.FallbackSuccess t
  | BreakerOp.fallbackFailure t => b.FallbackFailure t

def Breaker.applyOps (b : Breaker) (ops : List BreakerOp) : Breaker :=
  ops.foldl Breaker.applyOp b

/-- A draft breaker over a ring with no `nil` slot, so that its
`GetHealthSummary` (and hence `IsOpen`) can actually return. -/
def okBreaker : Breaker :=
  { name := "d"
    metric :=
      { timeWindow := 1
        counters := [some UnitCounter.zero]
        lastExecuteTime := 0
        lastSuccessTime := 0
        lastTimeoutTime := 0
        lastFailureTime := 0
        lastResetTime := 0 }
    status := BreakerStatus.Closed
    minRequestThreshold := 20
    errorThresholdPercentage := 50
    sleepWindow := 5
    timeWindow := 1 }

end Draft

end Circuit

/-! ### Theorems -/

namespace Circuit

namespace Internal

theorem countersOk_replicate (w : Nat) : CountersOk (List.replicate w none) := by
  intro u hu
  cases List.eq_of_mem_replicate hu

theorem countersOk_set {l : List (Option UnitCounter)} {i : Nat} {c : UnitCounter}
    (h : CountersOk l) (hc : c.timeout ≤ c.failure) : CountersOk (l.set i (some c)) := by
  intro u hu
  rcases List.mem_or_eq_of_mem_set hu with h' | h'
  · exact h u h'
  · exact (Option.some_inj.mp h') ▸ hc

theorem getCurrentCounter_timeout_le {m : Metric} {now : Nat} (h : CountersOk m.counters) :
    (m.getCurrentCounter now).1.timeout ≤ (m.getCurrentCounter now).1.failure := by
  unfold Metric.getCurrentCounter
  cases hget : m.counters[(now % 60) % m.counters.length]? with
  | none => simp [hget, UnitCounter.zero]
  | some oc =>
    cases oc with
    | none => simp [hget, UnitCounter.zero]
    | some c0 =>
      by_cases heq : now = c0.lastRecordTime
      · simp only [hget]
        rw [if_neg (by simpa using heq)]
        exact h c0 (List.getElem?_mem hget)
      · simp [hget, if_pos heq, UnitCounter.Reset, UnitCounter.zero]

theorem getCurrentCounter_lastRecordTime (m : Metric) (now : Nat) :
    (m.getCurrentCounter now).1.lastRecordTime = now := rfl

theorem countersOk_doSuccess (m : Metric) (now : Nat) (h : CountersOk m.counters) :
    CountersOk (m.doSuccess now).counters := by
  exact countersOk_set h (getCurrentCounter_timeout_le h)

theorem countersOk_doFailure (m : Metric) (now : Nat) (h : CountersOk m.counters) :
    CountersOk (m.doFailure now).counters := by
  exact countersOk_set h (Nat.le_succ_of_le (getCurrentCounter_timeout_le h))

theorem countersOk_doFallbackSuccess (m : Metric) (now : Nat) (h : CountersOk m.counters) :
    CountersOk (m.doFallbackSuccess now).counters := by
  exact countersOk_set h (getCurrentCounter_timeout_le h)

theorem countersOk_doFallbackFailure (m : Metric) (now : Nat) (h : CountersOk m.counters) :
    CountersOk (m.doFallbackFailure now).counters := by
  exact countersOk_set h (getCurrentCounter_timeout_le h)

theorem getCurrentCounter_update_times (m : Metric) (a b now : Nat) :
    ({ m with lastExecuteTime := a, lastTimeoutTime := b } : Metric).getCurrentCounter now
      = m.getCurrentCounter now := rfl

theorem unitCounter_with_lastRecordTime_eq (c : UnitCounter) (now : Nat)
    (hc : c.lastRecordTime = now) : ({ c with lastRecordTime := now } : UnitCounter) = c := by
  cases c
  cases hc
  rfl

/-- Fetching the current bucket right after a bucket stamped `now` was
stored at the current index returns that stored bucket unchanged. -/
theorem getCurrentCounter_putCounter (m : Metric) (now : Nat) (c : UnitCounter)
    (hc : c.lastRecordTime = now) (hlen : 0 < m.counters.length) :
    (m.putCounter (m.getCurrentCounter now).2 c).getCurrentCounter now
      = (c, (m.getCurrentCounter now).2) := by
  have hidx : (now % 60) % m.counters.length < m.counters.length := Nat.mod_lt _ hlen
  have hset : (m.counters.set ((now % 60) % m.counters.length)
      (some c))[(now % 60) % m.counters.length]? = some (some c) :=
    List.getElem?_set_self hidx
  unfold Metric.getCurrentCounter Metric.putCounter
  simp only [List.length_set, hset]
  rw [if_neg (by simp [hc])]
  simp [unitCounter_with_lastRecordTime_eq c now hc]

/-- `doTimeout` reaches the same ring slot twice (same `now`), so its net
effect on the ring is a single write of a bucket with both `Timeout` and
`Failure` bumped. -/
theorem doTimeout_counters (m : Metric) (now : Nat) :
    (m.doTimeout now).counters =
      m.counters.set (m.getCurrentCounter now).2
        (some { (m.getCurrentCounter now).1 with
                timeout := (m.getCurrentCounter now).1.timeout + 1
                failure := (m.getCurrentCounter now).1.failure + 1 }) := by
  rcases Nat.eq_zero_or_pos m.counters.length with hlen | hlen
  · have hnil : m.counters = [] := List.length_eq_zero.mp hlen
    simp [Metric.doTimeout, Metric.putCounter, Metric.getCurrentCounter, hnil]
  · set m1 : Metric := { m with lastExecuteTime := now, lastTimeoutTime := now } with hm1
    set c1 : UnitCounter :=
      { (m.getCurrentCounter now).1 with
        timeout := (m.getCurrentCounter now).1.timeout + 1 } with hc1
    set m2 : Metric := m1.putCounter (m.getCurrentCounter now).2 c1 with hm2
    have hq : m2.getCurrentCounter now = (c1, (m.getCurrentCounter now).2) :=
      getCurrentCounter_putCounter m1 now c1 rfl hlen
    show (m2.putCounter (m2.getCurrentCounter now).2
        { (m2.getCurrentCounter now).1 with
          failure := (m2.getCurrentCounter now).1.failure + 1 }).counters = _
    rw [hq]
    simp only [hm2, hm1, hc1, Metric.putCounter, List.set_set]

theorem countersOk_doTimeout (m : Metric) (now : Nat) (h : CountersOk m.counters) :
    CountersOk (m.doTimeout now).counters := by
  rw [doTimeout_counters]
  exact countersOk_set h (Nat.succ_le_succ (getCurrentCounter_timeout_le h))

theorem countersOk_doReset (m : Metric) (now : Nat) :
    CountersOk (m.doReset now).counters :=
  countersOk_replicate m.timeWindow

theorem countersOk_applyEvent (m : Metric) (e : MetricEvent) (h : CountersOk m.counters) :
    CountersOk (m.applyEvent e).counters := by
  cases e with
  | success t => exact countersOk_doSuccess m t h
  | timeout t => exact countersOk_doTimeout m t h
  | failure t => exact countersOk_doFailure m t h
  | fallbackSuccess t => exact countersOk_doFallbackSuccess m t h
  | fallbackFailure t => exact countersOk_doFallbackFailure m t h
  | reset t => exact countersOk_doReset m t

theorem countersOk_applyEvents (m : Metric) (es : List MetricEvent) (h : CountersOk m.counters) :
    CountersOk (m.applyEvents es).counters := by
  induction es generalizing m with
  | nil => exact h
  | cons e es ih => exact ih (m.applyEvent e) (countersOk_applyEvent m e h)

theorem summaryAcc_timeout_le (w now : Nat) (l : List (Option UnitCounter))
    (hl : CountersOk l) (acc : SummaryAcc) (hacc : acc.timeout ≤ acc.failure) :
    (l.foldl (summaryStep w now) acc).timeout ≤ (l.foldl (summaryStep w now) acc).failure := by
  induction l generalizing acc with
  | nil => exact hacc
  | cons hd tl ih =>
    have hl' : CountersOk tl := fun u hu => hl u (List.mem_cons_of_mem _ hu)
    cases hd with
    | none => exact ih hl' acc hacc
    | some c =>
      have hc : c.timeout ≤ c.failure := hl c (List.mem_cons_self _ _)
      by_cases hw : now - c.lastRecordTime > w
      · simp only [List.foldl_cons, summaryStep, if_pos hw]
        exact ih hl' acc hacc
      · simp only [List.foldl_cons, summaryStep, if_neg hw]
        exact ih hl' _ (Nat.add_le_add hacc hc)

/-- C7: every summary produced by the Metric after any history of ingest
events satisfies `total = success + failure`, `timeout ≤ failure` (a
Timeout bumps both counters on the same bucket), and `errorPercentage` is
`0` when `total = 0` and `100 × failure / total` otherwise. -/
theorem metric_summary_invariants (w : Nat) (es : List MetricEvent) (now : Nat) :
    let s := ((NewMetric w).applyEvents es).makeSummary now
    s.total = s.success + s.failure
      ∧ s.timeout ≤ s.failure
      ∧ s.errorPercentage
          = if s.total = 0 then 0 else 100 * (s.failure : ℚ) / (s.total : ℚ) := by
  intro s
  have hok : CountersOk ((NewMetric w).applyEvents es).counters :=
    countersOk_applyEvents (NewMetric w) es (countersOk_replicate w)
  refine ⟨rfl, ?_, ?_⟩
  · exact summaryAcc_timeout_le _ _ _ hok SummaryAcc.zero (Nat.le_refl 0)
  · show (((NewMetric w).applyEvents es).makeSummary now).errorPercentage
        = if (((NewMetric w).applyEvents es).makeSummary now).total = 0 then 0
          else 100 * ((((NewMetric w).applyEvents es).makeSummary now).failure : ℚ)
               / ((((NewMetric w).applyEvents es).makeSummary now).total : ℚ)
    simp only [Metric.makeSummary]
    split
    · rfl
    · ring

theorem foldl_summaryStep_replicate (w W now : Nat) (acc : SummaryAcc) :
    (List.replicate w (none : Option UnitCounter)).foldl (summaryStep W now) acc = acc := by
  induction w generalizing acc with
  | zero => rfl
  | succ n ih => simpa [List.replicate_succ, summaryStep] using ih acc

/-- Summing a ring holding a single allocated bucket yields one
`summaryStep` on that bucket. -/
theorem foldl_summaryStep_single (w W now i : Nat) (c : UnitCounter) (hi : i < w)
    (acc : SummaryAcc) :
    ((List.replicate w (none : Option UnitCounter)).set i (some c)).foldl
        (summaryStep W now) acc
      = summaryStep W now acc (some c) := by
  induction w generalizing i acc with
  | zero => exact absurd hi (Nat.not_lt_zero i)
  | succ n ih =>
    cases i with
    | zero =>
      simp only [List.replicate_succ, List.set, List.foldl_cons]
      exact foldl_summaryStep_replicate n W now _
    | succ j =>
      have hj : j < n := Nat.lt_of_succ_lt_succ hi
      simp only [List.replicate_succ, List.set, List.foldl_cons, summaryStep]
      exact ih j hj acc

end Internal

namespace Breaker

/-- C1 (evidence of the code bug): on both breaker implementations a
single `FallbackFailure` call on a fresh breaker leaves a summary with
`fallbackSuccess = 1` and `fallbackFailure = 0`, because both bodies
call `metric.FallbackSuccess()`. -/
theorem fallbackFailure_records_fallbackSuccess :
    (((NewCutBreaker "cut" 20 50 5 5).FallbackFailure 100).metric.makeSummary 100).fallbackSuccess = 1
    ∧ (((NewCutBreaker "cut" 20 50 5 5).FallbackFailure 100).metric.makeSummary 100).fallbackFailure = 0
    ∧ (((NewSreBreaker "sre" (3/2) 120).FallbackFailure 100).metric.makeSummary 100).fallbackSuccess = 1
    ∧ (((NewSreBreaker "sre" (3/2) 120).FallbackFailure 100).metric.makeSummary 100).fallbackFailure = 0 := by
  decide

/-- C2: a `CutBreaker` whose status is `Closed` admits with status text
`"closed"` iff `total < minRequestThreshold` or
`errorPercentage < errorThresholdPercentage` (both strict); otherwise it
CASes Closed→Openning and rejects with status text `"open"`. -/
theorem cutBreaker_closed_allow (b : CutBreaker) (s : Internal.MetricSummary) (now : Nat)
    (h : b.internalStatus = CutStatus.Closed) :
    (((s.total : Int) < b.minRequestThreshold
        ∨ s.errorPercentage < b.errorThresholdPercentage) →
      b.allow s now = (b, true, "closed"))
    ∧ (¬((s.total : Int) < b.minRequestThreshold
        ∨ s.errorPercentage < b.errorThresholdPercentage) →
      b.allow s now = ({ b with internalStatus := CutStatus.Openning }, false, "open")) := by
  constructor
  · intro hc
    simp [CutBreaker.allow, h, hc]
  · intro hc
    simp [CutBreaker.allow, h, hc, casStatus]

theorem cutBreaker_closed_allow_witness :
    (NewCutBreaker "w" 20 50 5 5).internalStatus = CutStatus.Closed
    ∧ (NewCutBreaker "w" 20 50 5 5).allow ((Internal.NewMetric 5).makeSummary 0) 0
        = (NewCutBreaker "w" 20 50 5 5, true, "closed") :=
  ⟨rfl, (cutBreaker_closed_allow (NewCutBreaker "w" 20 50 5 5)
      ((Internal.NewMetric 5).makeSummary 0) 0 rfl).1 (by decide)⟩

/-- C5 counterexample: with a summary of `total = 0`, `success = 0` the
rejection probability is `0`, yet the call whose draw is exactly `0`
(a value `rand.Float64()` can return) is rejected, because admission
requires the strict inequality `r > rejectProb`. -/
theorem sre_zero_draw_rejected :
    (NewSreBreaker "sre" (3/2) 120).getRejectionProbability
        ((Internal.NewMetric 120).makeSummary 0) = 0
    ∧ ((NewSreBreaker "sre" (3/2) 120).allow
        ((Internal.NewMetric 120).makeSummary 0) 0).1 = false := by
  have hsum : ((Internal.NewMetric 120).makeSummary 0).total = 0
      ∧ ((Internal.NewMetric 120).makeSummary 0).success = 0 := by
    constructor <;>
      simp [Internal.Metric.makeSummary, Internal.NewMetric,
        Internal.foldl_summaryStep_replicate, Internal.SummaryAcc.zero,
        Internal.summaryStep]
  have hp : (NewSreBreaker "sre" (3/2) 120).getRejectionProbability
      ((Internal.NewMetric 120).makeSummary 0) = 0 := by
    simp [SreBreaker.getRejectionProbability, hsum.1, hsum.2]
  exact ⟨hp, by simp [SreBreaker.allow, hp]⟩

/-- C5 (amended): `SreBreaker.allow` admits iff the draw strictly
exceeds `max(0, (total - k*success)/(total+1))`, and its status text is
the two three-decimal numbers; with `total = 0` and `success = 0` the
rejection probability is `0` and a call is admitted iff its draw is
strictly positive (a draw of exactly `0` is rejected). -/
theorem sre_allow_spec (b : SreBreaker) (s : Internal.MetricSummary) (r : ℚ)
    (h0 : 0 ≤ r) (h1 : r < 1) :
    ((b.allow s r).1 = true ↔ b.getRejectionProbability s < r)
    ∧ ((b.allow s r).2
        = "rejection probability = " ++ fmt3 (b.getRejectionProbability s)
          ++ ", this time = " ++ fmt3 r)
    ∧ (b.getRejectionProbability s
        = max 0 (((s.total : ℚ) - b.k * (s.success : ℚ)) / ((s.total : ℚ) + 1)))
    ∧ (s.total = 0 → s.success = 0 →
        b.getRejectionProbability s = 0 ∧ ((b.allow s r).1 = true ↔ 0 < r)) := by
  refine ⟨?_, rfl, rfl, ?_⟩
  · simp [SreBreaker.allow]
  · intro ht hs
    have hp : b.getRejectionProbability s = 0 := by
      simp [SreBreaker.getRejectionProbability, ht, hs]
    refine ⟨hp, ?_⟩
    simp [SreBreaker.allow, SreBreaker.getRejectionProbability, ht, hs]

/-- C4 counterexample: a `CutBreaker` in `HalfOpening` that records the
probe's Success ends with a summary of `total = 1`, not `total = 0`:
`CutBreaker.Success` records `metric.Success()` after the reset, so the
probe's own success survives into the next window. -/
theorem halfOpen_success_total_one :
    ((({ NewCutBreaker "cut" 20 50 2 5 with
          internalStatus := CutStatus.HalfOpening } : CutBreaker).Success 100).metric.makeSummary
        100).total = 1 := by
  decide

/-- C4 (amended): recording Success in `HalfOpening` applies
`Metric.Reset()` before the HalfOpening→Closed CAS; the breaker ends
`Closed`, an in-window summary taken after that Success shows
`total = 1` (only the probe's own Success, recorded after the reset,
remains), and the next `Allow` returns `(true, "closed")`. -/
theorem halfOpen_success_recovery (b : CutBreaker) (t now : Nat)
    (h : b.internalStatus = CutStatus.HalfOpening)
    (hW : 1 ≤ b.metric.timeWindow)
    (hwin : now - t ≤ b.metric.timeWindow)
    (hadm : (0:ℚ) < b.errorThresholdPercentage ∨ (1:Int) < b.minRequestThreshold) :
    (b.Success t).internalStatus = CutStatus.Closed
    ∧ (b.Success t).metric
        = (b.metric.applyEvent (Internal.MetricEvent.reset t)).applyEvent
            (Internal.MetricEvent.success t)
    ∧ ((b.Success t).metric.makeSummary now).total = 1
    ∧ ((b.Success t).metric.makeSummary now).success = 1
    ∧ ∀ now2, ((b.Success t).allow ((b.Success t).metric.makeSummary now) now2).2
        = (true, "closed") := by
  have hS : b.Success t
      = { b with internalStatus := CutStatus.Closed
                 metric := (b.metric.applyEvent (Internal.MetricEvent.reset t)).applyEvent
                   (Internal.MetricEvent.success t) } := by
    simp [CutBreaker.Success, h, casStatus]
  have hidx : (t % 60) % b.metric.timeWindow < b.metric.timeWindow :=
    Nat.mod_lt _ (lt_of_lt_of_le Nat.zero_lt_one hW)
  have hnotstale : ¬ (now - t > b.metric.timeWindow) := by omega
  have hsum : ((b.Success t).metric.makeSummary now).success = 1
      ∧ ((b.Success t).metric.makeSummary now).failure = 0
      ∧ ((b.Success t).metric.makeSummary now).total = 1
      ∧ ((b.Success t).metric.makeSummary now).errorPercentage = 0 := by
    rw [hS]
    refine ⟨?_, ?_, ?_, ?_⟩ <;>
      simp [Internal.Metric.applyEvent, Internal.Metric.doReset, Internal.Metric.doSuccess,
        Internal.Metric.getCurrentCounter, Internal.Metric.putCounter,
        Internal.Metric.makeSummary, List.length_replicate,
        List.getElem?_replicate_of_lt hidx,
        Internal.foldl_summaryStep_single _ _ _ _ _ hidx,
        Internal.summaryStep, hnotstale, Internal.UnitCounter.zero, Internal.SummaryAcc.zero]
  have hst : (b.Success t).internalStatus = CutStatus.Closed := by rw [hS]
  refine ⟨hst, by rw [hS], hsum.2.2.1, hsum.1, ?_⟩
  intro now2
  have hminR : (b.Success t).minRequestThreshold = b.minRequestThreshold := by rw [hS]
  have herrT : (b.Success t).errorThresholdPercentage = b.errorThresholdPercentage := by
    rw [hS]
  have hcond : ((((b.Success t).metric.makeSummary now).total : Int)
        < (b.Success t).minRequestThreshold
      ∨ ((b.Success t).metric.makeSummary now).errorPercentage
        < (b.Success t).errorThresholdPercentage) := by
    rcases hadm with h1 | h2
    · refine Or.inr ?_
      rw [hsum.2.2.2, herrT]
      exact h1
    · refine Or.inl ?_
      rw [hsum.2.2.1, hminR]
      exact_mod_cast h2
  simp only [CutBreaker.allow, hst]
  rw [if_pos hcond]

theorem halfOpen_success_recovery_witness :
    ({ NewCutBreaker "cw" 20 50 2 5 with
        internalStatus := CutStatus.HalfOpening } : CutBreaker).internalStatus
        = CutStatus.HalfOpening
    ∧ ((({ NewCutBreaker "cw" 20 50 2 5 with
          internalStatus := CutStatus.HalfOpening } : CutBreaker).Success 50).metric.makeSummary
        52).total = 1 :=
  ⟨rfl,
    (halfOpen_success_recovery
      ({ NewCutBreaker "cw" 20 50 2 5 with internalStatus := CutStatus.HalfOpening })
      50 52 rfl (by decide) (by decide)
      (Or.inl (by norm_num [NewCutBreaker]))).2.2.1⟩

theorem sre_allow_spec_witness :
    ((0:ℚ) ≤ 1/2)
    ∧ ((1:ℚ)/2 < 1)
    ∧ (((NewSreBreaker "sw" (3/2) 5).allow ((Internal.NewMetric 5).makeSummary 0) (1/2)).1 = true
        ↔ (NewSreBreaker "sw" (3/2) 5).getRejectionProbability
            ((Internal.NewMetric 5).makeSummary 0) < 1/2) :=
  ⟨by norm_num, by norm_num,
    (sre_allow_spec (NewSreBreaker "sw" (3/2) 5) ((Internal.NewMetric 5).makeSummary 0) (1/2)
      (by norm_num) (by norm_num)).1⟩

theorem countP_set_eq_of_eq {α : Type} (p : α → Bool) (l : List α) (i : Nat) (a b : α)
    (hb : l[i]? = some b) (hab : p a = p b) : (l.set i a).countP p = l.countP p := by
  induction l generalizing i with
  | nil => cases hb
  | cons hd tl ih =>
    cases i with
    | zero =>
      have hhd : hd = b := by simpa using hb
      subst hhd
      simp [List.countP_cons, hab]
    | succ j =>
      have hb' : tl[j]? = some b := by simpa using hb
      simp only [List.set]
      rw [List.countP_cons, List.countP_cons, ih j hb']

theorem countP_set_add_one {α : Type} (p : α → Bool) (l : List α) (i : Nat) (a b : α)
    (hb : l[i]? = some b) (ha : p a = true) (hpb : p b = false) :
    (l.set i a).countP p = l.countP p + 1 := by
  induction l generalizing i with
  | nil => cases hb
  | cons hd tl ih =>
    cases i with
    | zero =>
      have hhd : hd = b := by simpa using hb
      subst hhd
      simp [List.countP_cons, ha, hpb]
    | succ j =>
      have hb' : tl[j]? = some b := by simpa using hb
      simp only [List.set]
      rw [List.countP_cons, List.countP_cons, ih j hb']
      omega

theorem probeForall_set {P : ProbeThread → Prop} {l : List ProbeThread} {i : Nat}
    {a : ProbeThread} (hl : ∀ th ∈ l, P th) (ha : P a) : ∀ th ∈ l.set i a, P th := by
  intro th hth
  rcases List.mem_or_eq_of_mem_set hth with h | h
  · exact hl th h
  · exact h ▸ ha

theorem probeInv_step (b : CutBreaker) (sys : ProbeSys) (i : Nat)
    (h : ProbeInv sys.status sys.threads) :
    ProbeInv (probeStep b sys i).status (probeStep b sys i).threads := by
  obtain ⟨hA, hB, hC, hD, hE⟩ := h
  unfold probeStep
  split
  · exact ⟨hA, hB, hC, hD, hE⟩
  · rename_i th hth
    have hmem : th ∈ sys.threads := List.getElem?_mem hth
    split
    · rename_i hseen
      have hres : th.res = none := hE th hmem hseen
      have hcnt : (sys.threads.set i { th with seen := some sys.status }).countP isAdmitted
          = sys.threads.countP isAdmitted :=
        countP_set_eq_of_eq _ _ _ _ th hth rfl
      refine ⟨?_, ?_, ?_, ?_, ?_⟩
      · rcases hA with ⟨hs, hc⟩ | ⟨hs, hc⟩
        · exact Or.inl ⟨hs, by rw [hcnt]; exact hc⟩
        · exact Or.inr ⟨hs, by rw [hcnt]; exact hc⟩
      · refine probeForall_set hB ?_
        rcases hA with ⟨hs, _⟩ | ⟨hs, _⟩ <;> · rw [hs]; simp
      · refine probeForall_set hC ?_
        intro r s hrs
        rw [show ({ th with seen := some sys.status } : ProbeThread).res = th.res from rfl,
          hres] at hrs
        cases hrs
      · refine probeForall_set hD ?_
        intro _
        exact Or.inl hres
      · refine probeForall_set hE ?_
        intro h'
        cases h'
    · rename_i st hseen
      split
      · exact ⟨hA, hB, hC, hD, hE⟩
      · rename_i hres
        have hadmth : isAdmitted th = false := by simp [isAdmitted, hres]
        split
        · exact absurd hseen (hB th hmem)
        · have hcnt : (sys.threads.set i
                { th with res := some (false, "half-open") }).countP isAdmitted
              = sys.threads.countP isAdmitted :=
            countP_set_eq_of_eq _ _ _ _ th hth (by simp [isAdmitted, hres])
          refine ⟨?_, ?_, ?_, ?_, ?_⟩
          · rcases hA with ⟨hs, hc⟩ | ⟨hs, hc⟩
            · exact Or.inl ⟨hs, by rw [hcnt]; exact hc⟩
            · exact Or.inr ⟨hs, by rw [hcnt]; exact hc⟩
          · exact probeForall_set hB (hB th hmem)
          · refine probeForall_set hC ?_
            intro r s hrs htr
            rw [show ({ th with res := some (false, "half-open") } : ProbeThread).res
                = some (false, "half-open") from rfl] at hrs
            injection hrs with h1
            injection h1 with h1 h2
            exact absurd htr (by rw [← h1]; simp)
          · refine probeForall_set hD ?_
            intro _
            exact Or.inr rfl
          · refine probeForall_set hE ?_
            intro h'
            rw [show ({ th with res := some (false, "half-open") } : ProbeThread).seen
                = th.seen from rfl, hseen] at h'
            cases h'
        · split
          · rename_i htime
            have hcnt : (sys.threads.set i
                  { th with res := some (false, "open") }).countP isAdmitted
                = sys.threads.countP isAdmitted :=
              countP_set_eq_of_eq _ _ _ _ th hth (by simp [isAdmitted, hres])
            refine ⟨?_, ?_, ?_, ?_, ?_⟩
            · rcases hA with ⟨hs, hc⟩ | ⟨hs, hc⟩
              · exact Or.inl ⟨hs, by rw [hcnt]; exact hc⟩
              · exact Or.inr ⟨hs, by rw [hcnt]; exact hc⟩
            · exact probeForall_set hB (hB th hmem)
            · refine probeForall_set hC ?_
              intro r s hrs htr
              rw [show ({ th with res := some (false, "open") } : ProbeThread).res
                  = some (false, "open") from rfl] at hrs
              injection hrs with h1
              injection h1 with h1 h2
              exact absurd htr (by rw [← h1]; simp)
            · refine probeForall_set hD ?_
              intro h'
              rw [show ({ th with res := some (false, "open") } : ProbeThread).seen
                  = th.seen from rfl, hseen] at h'
              cases h'
            · refine probeForall_set hE ?_
              intro h'
              rw [show ({ th with res := some (false, "open") } : ProbeThread).seen
                  = th.seen from rfl, hseen] at h'
              cases h'
          · rename_i htime
            rcases hA with ⟨hs, hc⟩ | ⟨hs, hc⟩
            · rw [hs]
              show ProbeInv CutStatus.HalfOpening
                (sys.threads.set i { th with res := some (true, "half-open") })
              have hcnt : (sys.threads.set i
                    { th with res := some (true, "half-open") }).countP isAdmitted
                  = sys.threads.countP isAdmitted + 1 :=
                countP_set_add_one _ _ _ _ th hth (by simp [isAdmitted]) hadmth
              refine ⟨Or.inr ⟨rfl, by rw [hcnt, hc]⟩, ?_, ?_, ?_, ?_⟩
              · exact probeForall_set hB (hB th hmem)
              · refine probeForall_set hC ?_
                intro r s hrs _
                rw [show ({ th with res := some (true, "half-open") } : ProbeThread).res
                    = some (true, "half-open") from rfl] at hrs
                injection hrs with h1
                injection h1 with h1 h2
                exact h2.symm
              · refine probeForall_set hD ?_
                intro h'
                rw [show ({ th with res := some (true, "half-open") } : ProbeThread).seen
                    = th.seen from rfl, hseen] at h'
                cases h'
              · refine probeForall_set hE ?_
                intro h'
                rw [show ({ th with res := some (true, "half-open") } : ProbeThread).seen
                    = th.seen from rfl, hseen] at h'
                cases h'
            · rw [hs]
              show ProbeInv CutStatus.HalfOpening
                (sys.threads.set i { th with res := some (false, "half-open") })
              have hcnt : (sys.threads.set i
                    { th with res := some (false, "half-open") }).countP isAdmitted
                  = sys.threads.countP isAdmitted :=
                countP_set_eq_of_eq _ _ _ _ th hth (by simp [isAdmitted, hres])
              refine ⟨Or.inr ⟨rfl, by rw [hcnt]; exact hc⟩, ?_, ?_, ?_, ?_⟩
              · exact probeForall_set hB (hB th hmem)
              · refine probeForall_set hC ?_
                intro r s hrs htr
                rw [show ({ th with res := some (false, "half-open") } : ProbeThread).res
                    = some (false, "half-open") from rfl] at hrs
                injection hrs with h1
                injection h1 with h1 h2
                exact absurd htr (by rw [← h1]; simp)
              · refine probeForall_set hD ?_
                intro _
                exact Or.inr rfl
              · refine probeForall_set hE ?_
                intro h'
                rw [show ({ th with res := some (false, "half-open") } : ProbeThread).seen
                    = th.seen from rfl, hseen] at h'
                cases h'

theorem probeInv_run (b : CutBreaker) (sys : ProbeSys) (sched : List Nat)
    (h : ProbeInv sys.status sys.threads) :
    ProbeInv (probeRun b sys sched).status (probeRun b sys sched).threads := by
  induction sched generalizing sys with
  | nil => exact h
  | cons a as ih => exact ih (probeStep b sys a) (probeInv_step b sys a h)

/-- C3: starting from `Openning`, under every interleaving of any number
of `Allow` calls (each split into its status read and its branch body
with the CAS) and with no intervening Success/Failure/Timeout, at most
one call is admitted; one call is admitted exactly when the
Openning→HalfOpening CAS fired, the admitted call carries status text
`"half-open"`, and every call that observed `HalfOpening` is rejected
with `"half-open"`. -/
theorem cutBreaker_single_probe (b : CutBreaker) (threads : List ProbeThread)
    (sched : List Nat)
    (hinit : ∀ th ∈ threads, th.seen = none ∧ th.res = none) :
    admittedCount (probeRun b ⟨CutStatus.Openning, threads⟩ sched) ≤ 1
    ∧ (admittedCount (probeRun b ⟨CutStatus.Openning, threads⟩ sched) = 1
        ↔ (probeRun b ⟨CutStatus.Openning, threads⟩ sched).status = CutStatus.HalfOpening)
    ∧ (∀ th ∈ (probeRun b ⟨CutStatus.Openning, threads⟩ sched).threads, ∀ s,
        th.res = some (true, s) → s = "half-open")
    ∧ (∀ th ∈ (probeRun b ⟨CutStatus.Openning, threads⟩ sched).threads,
        th.seen = some CutStatus.HalfOpening →
        th.res = none ∨ th.res = some (false, "half-open")) := by
  have h0 : ProbeInv (⟨CutStatus.Openning, threads⟩ : ProbeSys).status
      (⟨CutStatus.Openning, threads⟩ : ProbeSys).threads := by
    refine ⟨Or.inl ⟨rfl, ?_⟩, ?_, ?_, ?_, ?_⟩
    · refine List.countP_eq_zero.mpr ?_
      intro th hth
      simp [isAdmitted, (hinit th hth).2]
    · intro th hth
      rw [(hinit th hth).1]
      simp
    · intro th hth r s hrs
      rw [(hinit th hth).2] at hrs
      cases hrs
    · intro th hth hseen
      rw [(hinit th hth).1] at hseen
      cases hseen
    · intro th hth _
      exact (hinit th hth).2
  obtain ⟨hA, hB, hC, hD, hE⟩ :=
    probeInv_run b ⟨CutStatus.Openning, threads⟩ sched h0
  refine ⟨?_, ?_, ?_, hD⟩
  · show (probeRun b ⟨CutStatus.Openning, threads⟩ sched).threads.countP isAdmitted ≤ 1
    rcases hA with ⟨_, hc⟩ | ⟨_, hc⟩ <;> omega
  · constructor
    · intro h1
      rcases hA with ⟨hs, hc⟩ | ⟨hs, hc⟩
      · exact absurd (show (1:Nat) = 0 from h1 ▸ hc) (by simp)
      · exact hs
    · intro hhalf
      show (probeRun b ⟨CutStatus.Openning, threads⟩ sched).threads.countP isAdmitted = 1
      rcases hA with ⟨hs, hc⟩ | ⟨hs, hc⟩
      · rw [hs] at hhalf
        cases hhalf
      · exact hc
  · intro th hth s hrs
    exact hC th hth true s hrs rfl

theorem cutBreaker_single_probe_witness :
    (∀ th ∈ [initThread ((Circuit.Internal.NewMetric 5).makeSummary 0) 100,
             initThread ((Circuit.Internal.NewMetric 5).makeSummary 0) 100],
        th.seen = none ∧ th.res = none)
    ∧ admittedCount (probeRun (NewCutBreaker "p" 20 50 5 5)
        ⟨CutStatus.Openning,
          [initThread ((Circuit.Internal.NewMetric 5).makeSummary 0) 100,
           initThread ((Circuit.Internal.NewMetric 5).makeSummary 0) 100]⟩
        [0, 0, 1, 1]) ≤ 1 :=
  ⟨by decide,
    (cutBreaker_single_probe (NewCutBreaker "p" 20 50 5 5)
      [initThread ((Circuit.Internal.NewMetric 5).makeSummary 0) 100,
       initThread ((Circuit.Internal.NewMetric 5).makeSummary 0) 100]
      [0, 0, 1, 1] (by decide)).1⟩

end Breaker

/-- C6 counterexample (scenario S4): `run` sleeps 3 s against a 2 s
timeout with a fallback returning `"fallback"`.  `Execute(3)` returns
`("fallback", nil)` — not an error satisfying `errors.Is(err, ErrTimeout)`
— because the synthesized timeout error is routed into the fallback,
which swallows it.  The Metric does show one timeout and one failure. -/
theorem s4_execute3_returns_fallback :
    (ContextExecute s4Command (some "3") (some "3") none 3 100).error = none
    ∧ (ContextExecute s4Command (some "3") (some "3") none 3 100).value = some "fallback"
    ∧ ((ContextExecute s4Command
        (some "3") (some "3") none 3 100).breaker.metric.makeSummary 103).timeout = 1
    ∧ ((ContextExecute s4Command
        (some "3") (some "3") none 3 100).breaker.metric.makeSummary 103).failure = 1 := by
  decide

/-- C6 (amended): when `run` does not finish within the per-call bound
on an admitted call, the wrapper records a `Timeout` event on the
breaker and synthesizes `<name>: command: timeout` whose chain satisfies
`errors.Is(·, ErrTimeout)`; with no fallback `Execute` returns that
error, and with a fallback configured the fallback receives it and
`Execute` returns the fallback's outcome (in S4: `("fallback", nil)`,
with the Metric showing one timeout and one failure). -/
theorem run_timeout_records_and_wraps (cmd : Command) (param runVal : Option String)
    (runErr : Option GoError) (runDur t : Nat)
    (hallow : (cmd.breaker.Allow t).2.1 = true)
    (hto : cmd.timeout ≤ runDur) :
    (wrapRunWithTimeout cmd (cmd.breaker.Allow t).1 runVal runErr runDur t).2.2
        = some (GoError.wrapped cmd.name ErrTimeout)
    ∧ (wrapRunWithTimeout cmd (cmd.breaker.Allow t).1 runVal runErr runDur t).1
        = ((cmd.breaker.Allow t).1).Timeout (t + cmd.timeout)
    ∧ errorsIs (GoError.wrapped cmd.name ErrTimeout) ErrTimeout = true
    ∧ (GoError.wrapped cmd.name ErrTimeout).Error = cmd.name ++ ": command: timeout"
    ∧ (cmd.fallback = none →
        ContextExecute cmd param runVal runErr runDur t
          = { breaker := ((cmd.breaker.Allow t).1).Timeout (t + cmd.timeout), value := none,
              error := some (GoError.wrapped cmd.name ErrTimeout), runInvoked := true })
    ∧ (∀ fb, cmd.fallback = some fb →
        ContextExecute cmd param runVal runErr runDur t
          = { breaker := (executeFallback cmd
                (((cmd.breaker.Allow t).1).Timeout (t + cmd.timeout)) fb none
                (GoError.wrapped cmd.name ErrTimeout) (t + min runDur cmd.timeout)).1
              value := (executeFallback cmd
                (((cmd.breaker.Allow t).1).Timeout (t + cmd.timeout)) fb none
                (GoError.wrapped cmd.name ErrTimeout) (t + min runDur cmd.timeout)).2.1
              error := (executeFallback cmd
                (((cmd.breaker.Allow t).1).Timeout (t + cmd.timeout)) fb none
                (GoError.wrapped cmd.name ErrTimeout) (t + min runDur cmd.timeout)).2.2
              runInvoked := true }) := by
  have hnotlt : ¬ (runDur < cmd.timeout) := by omega
  have hrr : wrapRunWithTimeout cmd (cmd.breaker.Allow t).1 runVal runErr runDur t
      = (((cmd.breaker.Allow t).1).Timeout (t + cmd.timeout), none,
         some (GoError.wrapped cmd.name ErrTimeout)) := by
    unfold wrapRunWithTimeout
    rw [if_neg hnotlt]
  refine ⟨by rw [hrr], by rw [hrr], ?_, ?_, ?_, ?_⟩
  · simp [errorsIs, ErrTimeout]
  · simp [GoError.Error, ErrTimeout, String.append_assoc]
  · intro hfb
    simp [ContextExecute, hallow, hrr, hfb]
  · intro fb hfb
    simp [ContextExecute, hallow, hrr, hfb]

theorem run_timeout_records_and_wraps_witness :
    ((timeoutWitnessCommand.breaker.Allow 100).2.1 = true)
    ∧ (wrapRunWithTimeout timeoutWitnessCommand
          ((timeoutWitnessCommand.breaker.Allow 100).1) (some "v") none 3 100).2.2
        = some (GoError.wrapped "w" ErrTimeout) :=
  ⟨by decide,
    (run_timeout_records_and_wraps timeoutWitnessCommand
      none (some "v") none 3 100 (by decide) (by decide)).1⟩

/-- C8: when the breaker rejects, `Execute` never starts `run`; with no
fallback it returns `nil` and the error `<name>: <status>: %w(ErrFallback)`,
whose chain satisfies `errors.Is(·, ErrFallback)` and whose message is
`<name>: <status>: command: unavailable`; with a fallback configured the
fallback is invoked with the original param and that synthesized error,
and `Execute` returns the fallback's outcome. -/
theorem execute_rejected_shortcircuit (cmd : Command) (param runVal : Option String)
    (runErr : Option GoError) (runDur t : Nat)
    (hrej : (cmd.breaker.Allow t).2.1 = false) :
    (ContextExecute cmd param runVal runErr runDur t).runInvoked = false
    ∧ errorsIs (GoError.wrapped (cmd.name ++ ": " ++ (cmd.breaker.Allow t).2.2) ErrFallback)
        ErrFallback = true
    ∧ (GoError.wrapped (cmd.name ++ ": " ++ (cmd.breaker.Allow t).2.2) ErrFallback).Error
        = cmd.name ++ ": " ++ (cmd.breaker.Allow t).2.2 ++ ": command: unavailable"
    ∧ (cmd.fallback = none →
        ContextExecute cmd param runVal runErr runDur t
          = { breaker := (cmd.breaker.Allow t).1, value := none,
              error := some (GoError.wrapped (cmd.name ++ ": " ++ (cmd.breaker.Allow t).2.2)
                ErrFallback),
              runInvoked := false })
    ∧ (∀ fb, cmd.fallback = some fb →
        ContextExecute cmd param runVal runErr runDur t
          = { breaker := (executeFallback cmd (cmd.breaker.Allow t).1 fb param
                (GoError.wrapped (cmd.name ++ ": " ++ (cmd.breaker.Allow t).2.2) ErrFallback)
                t).1
              value := (executeFallback cmd (cmd.breaker.Allow t).1 fb param
                (GoError.wrapped (cmd.name ++ ": " ++ (cmd.breaker.Allow t).2.2) ErrFallback)
                t).2.1
              error := (executeFallback cmd (cmd.breaker.Allow t).1 fb param
                (GoError.wrapped (cmd.name ++ ": " ++ (cmd.breaker.Allow t).2.2) ErrFallback)
                t).2.2
              runInvoked := false }) := by
  refine ⟨?_, ?_, ?_, ?_, ?_⟩
  · have h' : ∀ ofb, cmd.fallback = ofb →
        (ContextExecute cmd param runVal runErr runDur t).runInvoked = false := by
      intro ofb hofb
      cases ofb with
      | none => simp [ContextExecute, hrej, hofb]
      | some fb => simp [ContextExecute, hrej, hofb]
    exact h' cmd.fallback rfl
  · simp [errorsIs, ErrFallback]
  · simp [GoError.Error, ErrFallback, String.append_assoc]
  · intro hfb
    simp [ContextExecute, hrej, hfb]
  · intro fb hfb
    simp [ContextExecute, hrej, hfb]

theorem execute_rejected_shortcircuit_witness :
    ((rejectedWitnessCommand.breaker.Allow 2).2.1 = false)
    ∧ (ContextExecute rejectedWitnessCommand
        (some "p") (some "v") none 0 2).runInvoked = false :=
  ⟨by decide,
    (execute_rejected_shortcircuit rejectedWitnessCommand
      (some "p") (some "v") none 0 2 (by decide)).1⟩

namespace Draft

theorem healthLoop_error_of_mem_none (w now : Nat) (acc : HealthAcc)
    (l : List (Option UnitCounter)) (h : (none : Option UnitCounter) ∈ l) :
    healthLoop w now acc l = Except.error nilDerefMsg := by
  induction l generalizing acc with
  | nil => cases h
  | cons hd tl ih =>
    cases hd with
    | none => rfl
    | some c =>
      have h' : (none : Option UnitCounter) ∈ tl := by
        rcases List.mem_cons.mp h with h0 | h0
        · exact absurd h0 (by simp)
        · exact h0
      exact ih acc h'

theorem draft_getCurrentCounter_alias_none (m : Metric) (now : Nat)
    (h : m.counters = List.replicate m.timeWindow none) :
    (m.getCurrentCounter now).2 = none := by
  simp only [Metric.getCurrentCounter, h, List.length_replicate, List.getElem?_replicate]
  split
  · rfl
  · rfl
  · rename_i heq
    split at heq <;> simp at heq

theorem draft_writeBack_none (m : Metric) (c : UnitCounter) : writeBack m none c = m := rfl

theorem draft_applyEvent_nilring (m : Metric) (e : MetricEvent)
    (h : m.counters = List.replicate m.timeWindow none) :
    (m.applyEvent e).timeWindow = m.timeWindow
    ∧ (m.applyEvent e).counters = List.replicate m.timeWindow none := by
  cases e with
  | success t =>
    have hp : (({ m with lastExecuteTime := t, lastSuccessTime := t } : Metric).getCurrentCounter
        t).2 = none := draft_getCurrentCounter_alias_none _ t h
    simp only [Metric.applyEvent, Metric.doSuccess, hp, draft_writeBack_none]
    exact ⟨trivial, h⟩
  | timeout t =>
    have hp : (({ m with lastExecuteTime := t, lastTimeoutTime := t } : Metric).getCurrentCounter
        t).2 = none := draft_getCurrentCounter_alias_none _ t h
    simp only [Metric.applyEvent, Metric.doTimeout, hp, draft_writeBack_none]
    exact ⟨trivial, h⟩
  | failure t =>
    have hp : (({ m with lastExecuteTime := t, lastFailureTime := t } : Metric).getCurrentCounter
        t).2 = none := draft_getCurrentCounter_alias_none _ t h
    simp only [Metric.applyEvent, Metric.doFailure, hp, draft_writeBack_none]
    exact ⟨trivial, h⟩
  | fallbackSuccess t =>
    have hp : (({ m with lastExecuteTime := t } : Metric).getCurrentCounter
        t).2 = none := draft_getCurrentCounter_alias_none _ t h
    simp only [Metric.applyEvent, Metric.doFallbackSuccess, hp, draft_writeBack_none]
    exact ⟨trivial, h⟩
  | fallbackFailure t =>
    have hp : (({ m with lastExecuteTime := t } : Metric).getCurrentCounter
        t).2 = none := draft_getCurrentCounter_alias_none _ t h
    simp only [Metric.applyEvent, Metric.doFallbackFailure, hp, draft_writeBack_none]
    exact ⟨trivial, h⟩
  | reset t => exact ⟨rfl, rfl⟩

theorem draft_applyEvents_nilring (w : Nat) (es : List MetricEvent) :
    ((newMetric w).applyEvents es).timeWindow = w
    ∧ ((newMetric w).applyEvents es).counters = List.replicate w none := by
  suffices hgen : ∀ (m : Metric), m.timeWindow = w →
      m.counters = List.replicate w none →
      (m.applyEvents es).timeWindow = w
        ∧ (m.applyEvents es).counters = List.replicate w none by
    exact hgen (newMetric w) rfl rfl
  induction es with
  | nil => exact fun m hw hc => ⟨hw, hc⟩
  | cons e es ih =>
    intro m hw hc
    have hstep := draft_applyEvent_nilring m e (by rw [hc, hw])
    exact ih (m.applyEvent e) (hstep.1.trans hw) (by rw [hstep.2, hw])

/-- C9: the draft `GetHealthSummary` skips non-nil buckets and
dereferences nil ones (inverted nil check), so it panics on every metric
whose ring has a nil slot; and since the draft `getCurrentCounter` never
stores a freshly allocated counter back, the ring of a metric built by
`newMetric` stays all-nil under every event history, so its
`GetHealthSummary` always panics. -/
theorem draft_getHealthSummary_panics (w : Nat) (es : List MetricEvent) (now : Nat)
    (hW : 1 ≤ w) :
    ((newMetric w).applyEvents es).counters = List.replicate w none
    ∧ ((newMetric w).applyEvents es).GetHealthSummary now = Except.error nilDerefMsg
    ∧ (∀ m : Metric, (none : Option UnitCounter) ∈ m.counters →
        m.GetHealthSummary now = Except.error nilDerefMsg) := by
  have hc := (draft_applyEvents_nilring w es).2
  have hgen : ∀ m : Metric, (none : Option UnitCounter) ∈ m.counters →
      m.GetHealthSummary now = Except.error nilDerefMsg := by
    intro m hm
    unfold Metric.GetHealthSummary
    rw [healthLoop_error_of_mem_none m.timeWindow now HealthAcc.zero m.counters hm]
  refine ⟨hc, ?_, hgen⟩
  refine hgen _ ?_
  rw [hc]
  exact List.mem_replicate.mpr ⟨by omega, rfl⟩

theorem draft_getHealthSummary_panics_witness :
    (1 ≤ 5)
    ∧ ((newMetric 5).applyEvents
        [MetricEvent.success 3, MetricEvent.timeout 4]).GetHealthSummary 6
      = Except.error nilDerefMsg :=
  ⟨by decide,
    (draft_getHealthSummary_panics 5 [MetricEvent.success 3, MetricEvent.timeout 4] 6
      (by decide)).2.1⟩

/-- C10: every CAS in the draft `breaker.go` is given the address of the
local pointer variable `status`, not of the status field, and compares
the stored pointer `&breaker.status` against the address of a
package-level variable — never equal — so no call to `IsOpen`,
`Success`, `Failure` or `Timeout` ever modifies `breaker.status`: a
breaker built by `NewBreaker` stays `Closed` through every call
sequence, `IsOpen` returns the breaker unchanged, and with the status
pinned to `Closed` the `Openning`/`HalfOpening` branches of `IsOpen`
are unreachable. -/
theorem draft_breaker_stuck_closed (name : String) (minR : Int) (errP : ℚ)
    (sleep w : Nat) (ops : List BreakerOp) :
    ((NewBreaker name minR errP sleep w).applyOps ops).status = BreakerStatus.Closed
    ∧ (∀ (b : Breaker) (now : Nat) (p : Breaker × Bool),
        b.IsOpen now = Except.ok p → p.1 = b)
    ∧ (∀ (b : Breaker) (t : Nat),
        (b.Success t).status = b.status
          ∧ (b.Failure t).status = b.status
          ∧ (b.Timeout t).status = b.status)
    ∧ (∀ newPtr : GoPtr,
        casOnLocalStatusVar GoPtr.varClosed newPtr = (GoPtr.fieldStatus, false)
          ∧ casOnLocalStatusVar GoPtr.varOpenning newPtr = (GoPtr.fieldStatus, false)
          ∧ casOnLocalStatusVar GoPtr.varHalfOpening newPtr = (GoPtr.fieldStatus, false)) := by
  have hIsOpen : ∀ (b : Breaker) (now : Nat) (p : Breaker × Bool),
      b.IsOpen now = Except.ok p → p.1 = b := by
    intro b now p hp
    unfold Breaker.IsOpen at hp
    split at hp
    · cases hp
    · split at hp
      · split at hp
        · injection hp with h
          rw [← h]
        · injection hp with h
          rw [← h]
      · injection hp with h
        rw [← h]
      · split at hp
        · injection hp with h
          rw [← h]
        · injection hp with h
          rw [← h]
  have hEvents : ∀ (b : Breaker) (t : Nat),
      (b.Success t).status = b.status
        ∧ (b.Failure t).status = b.status
        ∧ (b.Timeout t).status = b.status := by
    intro b t
    refine ⟨?_, ?_, ?_⟩
    · unfold Breaker.Success
      split <;> rfl
    · unfold Breaker.Failure
      split <;> rfl
    · unfold Breaker.Timeout
      split <;> rfl
  have hstep : ∀ (b : Breaker) (op : BreakerOp), (b.applyOp op).status = b.status := by
    intro b op
    cases op with
    | isOpen now =>
      show (match b.IsOpen now with
        | Except.ok p => p.1
        | Except.error _ => b).status = b.status
      split
      · rename_i p hp
        rw [hIsOpen b now p hp]
      · rfl
    | success t => exact (hEvents b t).1
    | failure t => exact (hEvents b t).2.1
    | timeout t => exact (hEvents b t).2.2
    | fallbackSuccess t => rfl
    | fallbackFailure t => rfl
  have hops : ∀ (ops : List BreakerOp) (b : Breaker),
      (b.applyOps ops).status = b.status := by
    intro ops
    induction ops with
    | nil => exact fun b => rfl
    | cons o os ih => exact fun b => (ih (b.applyOp o)).trans (hstep b o)
  exact ⟨hops ops _, hIsOpen, hEvents, fun newPtr => ⟨rfl, rfl, rfl⟩⟩

theorem draft_breaker_stuck_closed_witness :
    okBreaker.IsOpen 3 = Except.ok (okBreaker, false)
    ∧ ((NewBreaker "d" 20 50 5 5).applyOps
        [BreakerOp.success 1, BreakerOp.isOpen 2]).status = BreakerStatus.Closed
    ∧ (okBreaker, false).1 = okBreaker :=
  ⟨rfl,
    (draft_breaker_stuck_closed "d" 20 50 5 5 [BreakerOp.success 1, BreakerOp.isOpen 2]).1,
    (draft_breaker_stuck_closed "d" 20 50 5 5 [BreakerOp.success 1,
      BreakerOp.isOpen 2]).2.1 okBreaker 3 (okBreaker, false) rfl⟩

end Draft

end Circuit
